import Mathlib

/-!
Shallow embedding of the tao-cpp/result optional container
(src/include/tao/result/result.hpp) and proofs about the claims of its
specification.

The C++ storage base keeps a union storage slot together with a boolean
discriminant.  The storage slot is modelled as an Option: some v means the
slot holds an alive object with value v, none means the slot is
uninitialized or destroyed.  The discriminant is kept as a separate Bool
field, exactly as in the source, so that states where the two disagree are
representable (they matter: the source can reach them).

Unchecked reads of the storage (get(), operator*) are modelled by deref,
which returns an arbitrary default when the slot is dead, mirroring the
unchecked C++ access.  Move semantics of the element type are modelled,
where they matter, by a residue function mv : T -> T giving the value an
object of T holds after being moved from (for std::string-like types this
is the empty value).
-/

namespace Tao

/-- Models tao::monostate (result.hpp line 26), the unit marker used for
void-returning map results. -/
inductive monostate : Type where
  | mk
deriving DecidableEq, Repr

/-- Models tao::bad_optional_access (result.hpp lines 451-455), the single
runtime error of the library. -/
inductive bad_optional_access : Type where
  | mk
deriving DecidableEq, Repr

/-- Models the state of detail::optional_storage_base (result.hpp lines
113-167): a union slot (none = dummy or destroyed, some v = alive object
with value v) plus the boolean discriminant has_value_. -/
structure optional (T : Type) where
  value_ : Option T
  has_value_ : Bool
deriving DecidableEq, Repr

/-- Default construction and construction from nullopt (result.hpp lines
115-118, 912, 915): dummy storage, discriminant false. -/
def optional.empty (T : Type) : optional T := ⟨none, false⟩

/-- Construction with a value, through the in_place storage constructor
(result.hpp lines 120-124, 951-955): alive storage, discriminant true. -/
def optional.ofValue {T : Type} (v : T) : optional T := ⟨some v, true⟩

/-- Models has_value() (result.hpp lines 203, 1168): reads the
discriminant. -/
def optional.has_value {T : Type} (o : optional T) : Bool := o.has_value_

/-- Models the unchecked storage reads get() and operator* (result.hpp lines
205-216, 1150-1163): returns the slot content, an arbitrary default if the
slot is dead (undefined behavior territory in the source). -/
def optional.deref {T : Type} [Inhabited T] (o : optional T) : T :=
  o.value_.getD default

/-- Models detail::optional_operations_base::construct (result.hpp lines
180-185): placement-new into the slot, then set the discriminant. -/
def optional.construct {T : Type} (_o : optional T) (v : T) : optional T :=
  ⟨some v, true⟩

/-- Models detail::optional_operations_base::hard_reset (result.hpp lines
175-178): destroy the slot content, clear the discriminant. -/
def optional.hard_reset {T : Type} (_o : optional T) : optional T :=
  ⟨none, false⟩

/-- Models reset() (result.hpp lines 1225-1230): destroy and clear only
when the discriminant is set. -/
def optional.reset {T : Type} (o : optional T) : optional T :=
  if o.has_value_ then ⟨none, false⟩ else o

/-- Models operator=(nullopt_t) (result.hpp lines 1004-1011): destroy and
clear only when the discriminant is set. -/
def optional.assignNullopt {T : Type} (o : optional T) : optional T :=
  if o.has_value_ then ⟨none, false⟩ else o

/-- Models detail::optional_operations_base::assign for a copy source
(result.hpp lines 187-201), with the element copy assignment replacing the
stored value.  Note the source has no else between the two if statements:
when both sides hold values it assign-throughs and then also constructs. -/
def optional.assign {T : Type} [Inhabited T] (self rhs : optional T) :
    optional T :=
  let step1 :=
    if self.has_value_ then
      if rhs.has_value_ then { self with value_ := some rhs.deref }
      else self.hard_reset
    else self
  if rhs.has_value_ then step1.construct rhs.deref else step1

/-- Models the converting move assignment operator=(optional U rvalue)
(result.hpp lines 1068-1083) and the rvalue path of
detail::optional_operations_base::assign, for an element type whose
moved-from objects hold mv of their previous value.  Each read of
std::move(rhs value) hands over the current slot content and leaves the
residue behind; the discriminant of rhs is never cleared by moving.
Returns (new self, new rhs). -/
def optional.moveAssign {T : Type} [Inhabited T] (mv : T → T)
    (self rhs : optional T) : optional T × optional T :=
  let step1 : optional T × optional T :=
    if self.has_value_ then
      if rhs.has_value_ then
        ({ self with value_ := some rhs.deref },
         { rhs with value_ := some (mv rhs.deref) })
      else (self.hard_reset, rhs)
    else (self, rhs)
  if step1.2.has_value_ then
    (step1.1.construct step1.2.deref,
     { step1.2 with value_ := some (mv step1.2.deref) })
  else step1

/-- Models the non-trivial copy constructor (result.hpp lines 232-238):
construct from the source slot when the source discriminant is set,
otherwise stay empty. -/
def optional.copyCtor {T : Type} [Inhabited T] (rhs : optional T) :
    optional T :=
  if rhs.has_value_ then optional.construct ⟨none, false⟩ rhs.deref
  else ⟨none, false⟩

/-- Models take() on an lvalue (result.hpp lines 879-883): copy-construct
the return value, then reset this.  Returns (returned optional, new self). -/
def optional.take {T : Type} [Inhabited T] (o : optional T) :
    optional T × optional T :=
  (o.copyCtor, o.reset)

/-- Models value() (result.hpp lines 1179-1205): the slot content when the
discriminant is set, otherwise the bad_optional_access error. -/
def optional.valueE {T : Type} [Inhabited T] (o : optional T) :
    Except bad_optional_access T :=
  if o.has_value_ then .ok o.deref else .error .mk

/-- Models emplace(args...) (result.hpp lines 1088-1095): assign nullopt,
construct, then return value().  Returns the reference result paired with
the new state. -/
def optional.emplace {T : Type} [Inhabited T] (o : optional T) (v : T) :
    Except bad_optional_access (T × optional T) :=
  let o1 := o.assignNullopt
  let o2 := o1.construct v
  match o2.valueE with
  | .ok r => .ok (r, o2)
  | .error e => .error e

/-- Models swap(rhs) (result.hpp lines 1115-1130).  Both holding: the two
slot contents are exchanged.  Exactly one holding: the value is constructed
in the other slot and the source slot is destroyed.  The discriminants are
never touched, exactly as in the source (which has no flag update).
Returns (new self, new rhs). -/
def optional.swap {T : Type} [Inhabited T] (self rhs : optional T) :
    optional T × optional T :=
  if self.has_value_ then
    if rhs.has_value_ then
      ({ self with value_ := some rhs.deref },
       { rhs with value_ := some self.deref })
    else
      ({ self with value_ := none }, { rhs with value_ := some self.deref })
  else if rhs.has_value_ then
    ({ self with value_ := some rhs.deref }, { rhs with value_ := none })
  else (self, rhs)

/-- Models operator==(optional, optional) (result.hpp lines 1239-1244),
with the element equality of T. -/
def optional.beq {T : Type} [Inhabited T] [BEq T] (lhs rhs : optional T) :
    Bool :=
  (lhs.has_value_ == rhs.has_value_) &&
    (!lhs.has_value_ || lhs.deref == rhs.deref)

/-- Models operator==(optional, nullopt_t) (result.hpp lines 1281-1283). -/
def optional.beqNullopt {T : Type} (lhs : optional T) : Bool :=
  !lhs.has_value_

/-- Models operator<(optional, optional) (result.hpp lines 1253-1257),
with the element order of T given as ltT. -/
def optional.lt {T : Type} [Inhabited T] (ltT : T → T → Bool)
    (lhs rhs : optional T) : Bool :=
  rhs.has_value_ && (!lhs.has_value_ || ltT lhs.deref rhs.deref)

/-- Models operator<(optional, U bare value) (result.hpp lines 1365-1368). -/
def optional.ltVal {T : Type} [Inhabited T] (ltT : T → T → Bool)
    (lhs : optional T) (rhs : T) : Bool :=
  if lhs.has_value_ then ltT lhs.deref rhs else true

/-- Models operator==(optional, U bare value) (result.hpp lines 1345-1348). -/
def optional.beqVal {T : Type} [Inhabited T] [BEq T] (lhs : optional T)
    (rhs : T) : Bool :=
  if lhs.has_value_ then lhs.deref == rhs else false

/-- Models operator!=(optional, U bare value) (result.hpp lines 1355-1358). -/
def optional.bneVal {T : Type} [Inhabited T] [BEq T] (lhs : optional T)
    (rhs : T) : Bool :=
  if lhs.has_value_ then lhs.deref != rhs else true

/-- Models detail::optional_map_impl for a function with a non-void result
(result.hpp lines 1466-1475), instrumented with the number of invocations
of f: the invoke expression occurs only in the has_value branch. -/
def optional_map_impl {T U : Type} [Inhabited T] (o : optional T)
    (f : T → U) : optional U × Nat :=
  if o.has_value_ then (optional.ofValue (f o.deref), 1)
  else (optional.empty U, 0)

/-- Models detail::optional_map_impl for a function with a void result
(result.hpp lines 1477-1489), instrumented with the number of invocations
of f. -/
def optional_map_impl_void {T : Type} [Inhabited T] (o : optional T)
    (f : T → Unit) : optional monostate × Nat :=
  if o.has_value_ then
    let _ := f o.deref
    (optional.ofValue monostate.mk, 1)
  else (optional.empty monostate, 0)

/-- Models and_then(f) (result.hpp lines 491-533): the result of f applied
to the stored value, or an empty optional of the result type, instrumented
with the number of invocations of f. -/
def optional.and_then {T U : Type} [Inhabited T] (o : optional T)
    (f : T → optional U) : optional U × Nat :=
  if o.has_value_ then (f o.deref, 1) else (optional.empty U, 0)

/-- The documented storage invariant (spec section 3): the slot is alive
exactly when the discriminant is set. -/
def optional.Invariant {T : Type} (o : optional T) : Prop :=
  o.value_.isSome = o.has_value_

instance {T : Type} (o : optional T) : Decidable o.Invariant :=
  inferInstanceAs (Decidable (o.value_.isSome = o.has_value_))

/-- Models the state of the reference specialization optional of a
reference (result.hpp lines 1515-2110): a pointer slot, nullptr modelled as
none and a bound referent with value v as some v. -/
structure optionalRef (T : Type) where
  value_ : Option T
deriving DecidableEq, Repr

/-- Models optional reference has_value() (result.hpp line 2064): the
pointer is non-null. -/
def optionalRef.has_value {T : Type} (o : optionalRef T) : Bool :=
  o.value_.isSome

/-- Models optional reference value() (result.hpp lines 2075-2086): the
referent when bound, otherwise the bad_optional_access error. -/
def optionalRef.valueE {T : Type} (o : optionalRef T) :
    Except bad_optional_access T :=
  match o.value_ with
  | some v => .ok v
  | none => .error .mk

/-- Models the converting assignment of the reference specialization from a
value optional (result.hpp lines 2017-2020): it unconditionally evaluates
rhs.value() and stores its address, so an empty rhs raises the error and
leaves lhs unchanged, while a holding rhs rebinds lhs to its value. -/
def optionalRef.assignFromOptional {T : Type} [Inhabited T]
    (_lhs : optionalRef T) (rhs : optional T) :
    Except bad_optional_access (optionalRef T) :=
  match rhs.valueE with
  | .ok v => .ok ⟨some v⟩
  | .error e => .error e

/-- Claim C1: assignment from another optional is claimed to assign-through
when both sides hold values and to leave the target holding the prior value
of the source.  The converting move assignment (result.hpp lines 1068-1083)
lacks the else between its two conditionals, so after the assign-through it
constructs again from the already moved-from source.  For an element type
whose moved-from objects hold 0, moving an optional holding 5 into an
optional holding 1 leaves the target holding the residue 0, not 5. -/
theorem C1_move_assign_double_move :
    ((optional.moveAssign (fun _ => 0) (optional.ofValue 1)
        (optional.ofValue (5 : Nat))).1.value_ = some 0) ∧
    ((optional.moveAssign (fun _ => 0) (optional.ofValue 1)
        (optional.ofValue (5 : Nat))).1.value_ ≠ some 5) := by
  decide

/-- Claim C6: swap on one-holding operands is claimed to move the value to
the other side and leave the source empty.  The source (result.hpp lines
1115-1130) moves the slot contents but never updates the discriminants, so
after swapping a holding optional with an empty one the former still
reports has_value true (with a destroyed slot) and the latter still reports
false (with an alive slot). -/
theorem C6_swap_flags_not_swapped :
    optional.swap (optional.ofValue (1 : Nat)) (optional.empty Nat) =
      (⟨none, true⟩, ⟨some 1, false⟩) ∧
    (optional.swap (optional.ofValue (1 : Nat))
        (optional.empty Nat)).1.has_value = true := by
  decide

/-- Claim C9: every public operation is claimed to preserve the invariant
that the slot is alive exactly when the discriminant is set.  swap
(result.hpp lines 1115-1130) violates it: swapping a holding optional with
an empty one yields a state with discriminant true and destroyed slot. -/
theorem C9_swap_breaks_invariant :
    (optional.ofValue (1 : Nat)).Invariant ∧
    (optional.empty Nat).Invariant ∧
    ¬ (optional.swap (optional.ofValue (1 : Nat))
        (optional.empty Nat)).1.Invariant := by
  decide

/-- Claim C2: value() returns the held value exactly when the discriminant
is set and raises the empty-access error exactly when it is not; emplace,
the one other operation that invokes value(), never raises it. -/
theorem C2_value_empty_access {T : Type} [Inhabited T] (o : optional T)
    (h : o.Invariant) :
    (∀ v, o.value_ = some v → o.valueE = .ok v) ∧
    ((∃ e, o.valueE = .error e) ↔ o.has_value = false) ∧
    (∀ v, ∃ o2, o.emplace v = .ok (v, o2)) := by
  obtain ⟨val, hv⟩ := o
  cases hv with
  | false =>
    have hval : val = none := by
      cases val with
      | none => rfl
      | some x => simp [optional.Invariant] at h
    subst hval
    refine ⟨?_, ?_, ?_⟩
    · intro v hveq
      simp at hveq
    · refine ⟨fun _ => rfl, fun _ => ⟨bad_optional_access.mk, rfl⟩⟩
    · intro v
      exact ⟨⟨some v, true⟩, rfl⟩
  | true =>
    obtain ⟨x, hx⟩ : ∃ x, val = some x := by
      cases val with
      | none => simp [optional.Invariant] at h
      | some x => exact ⟨x, rfl⟩
    subst hx
    refine ⟨?_, ?_, ?_⟩
    · intro v hveq
      simp at hveq
      subst hveq
      rfl
    · constructor
      · rintro ⟨e, he⟩
        simp [optional.valueE] at he
      · intro hfalse
        simp [optional.has_value] at hfalse
    · intro v
      exact ⟨⟨some v, true⟩, rfl⟩

/-- Witness for C2 at a concrete optional holding 3. -/
theorem C2_witness :
    (optional.ofValue (3 : Nat)).Invariant ∧
    ((∀ v, (optional.ofValue (3 : Nat)).value_ = some v →
        (optional.ofValue (3 : Nat)).valueE = .ok v) ∧
     ((∃ e, (optional.ofValue (3 : Nat)).valueE = .error e) ↔
        (optional.ofValue (3 : Nat)).has_value = false) ∧
     (∀ v, ∃ o2, (optional.ofValue (3 : Nat)).emplace v = .ok (v, o2))) :=
  ⟨by decide, C2_value_empty_access (optional.ofValue 3) (by decide)⟩

/-- Claim C3: take() clears the source and returns its prior state. -/
theorem C3_take_clears_source {T : Type} [Inhabited T] (o : optional T)
    (h : o.Invariant) :
    o.take.2.has_value = false ∧ o.take.1 = o := by
  obtain ⟨val, hv⟩ := o
  cases hv with
  | false =>
    have hval : val = none := by
      cases val with
      | none => rfl
      | some x => simp [optional.Invariant] at h
    subst hval
    exact ⟨rfl, rfl⟩
  | true =>
    obtain ⟨x, hx⟩ : ∃ x, val = some x := by
      cases val with
      | none => simp [optional.Invariant] at h
      | some x => exact ⟨x, rfl⟩
    subst hx
    exact ⟨rfl, rfl⟩

/-- Witness for C3 at a concrete optional holding 7. -/
theorem C3_witness :
    (optional.ofValue (7 : Nat)).Invariant ∧
    ((optional.ofValue (7 : Nat)).take.2.has_value = false ∧
     (optional.ofValue (7 : Nat)).take.1 = optional.ofValue 7) :=
  ⟨by decide, C3_take_clears_source (optional.ofValue 7) (by decide)⟩

/-- Claim C4: map applies f to a held value and wraps the result, wraps the
unit marker for a void-returning f, and on an empty optional returns an
empty optional of the mapped type without invoking f. -/
theorem C4_map {T U : Type} [Inhabited T] (o : optional T) (f : T → U)
    (g : T → Unit) (h : o.Invariant) :
    (∀ v, o.value_ = some v →
      optional_map_impl o f = (optional.ofValue (f v), 1) ∧
      optional_map_impl_void o g = (optional.ofValue monostate.mk, 1)) ∧
    (o.has_value = false →
      optional_map_impl o f = (optional.empty U, 0) ∧
      optional_map_impl_void o g = (optional.empty monostate, 0)) := by
  obtain ⟨val, hv⟩ := o
  cases hv with
  | false =>
    refine ⟨?_, ?_⟩
    · intro v hveq
      simp at hveq
      subst hveq
      simp [optional.Invariant] at h
    · intro _
      exact ⟨rfl, rfl⟩
  | true =>
    obtain ⟨x, hx⟩ : ∃ x, val = some x := by
      cases val with
      | none => simp [optional.Invariant] at h
      | some x => exact ⟨x, rfl⟩
    subst hx
    refine ⟨?_, ?_⟩
    · intro v hveq
      simp at hveq
      subst hveq
      exact ⟨rfl, rfl⟩
    · intro hfalse
      simp [optional.has_value] at hfalse

/-- Witness for C4 at a concrete optional holding 2 and the successor
function. -/
theorem C4_witness :
    (optional.ofValue (2 : Nat)).Invariant ∧
    ((∀ v, (optional.ofValue (2 : Nat)).value_ = some v →
        optional_map_impl (optional.ofValue 2) (fun n => n + 1) =
          (optional.ofValue (v + 1), 1) ∧
        optional_map_impl_void (optional.ofValue 2) (fun _ => ()) =
          (optional.ofValue monostate.mk, 1)) ∧
     ((optional.ofValue (2 : Nat)).has_value = false →
        optional_map_impl (optional.ofValue 2) (fun n => n + 1) =
          (optional.empty Nat, 0) ∧
        optional_map_impl_void (optional.ofValue 2) (fun _ => ()) =
          (optional.empty monostate, 0))) :=
  ⟨by decide,
   C4_map (optional.ofValue 2) (fun n => n + 1) (fun _ => ()) (by decide)⟩

/-- Claim C5: and_then on an optional holding v returns f v itself
(flattened), and on an empty optional returns an empty optional of the
result type without invoking f. -/
theorem C5_and_then_flattens {T U : Type} [Inhabited T] (v : T)
    (f : T → optional U) :
    (optional.and_then (optional.ofValue v) f).1 = f v ∧
    optional.and_then (optional.empty T) f = (optional.empty U, 0) :=
  ⟨rfl, rfl⟩

/-- Claim C7: two optionals compare equal exactly when both are empty or
both hold values that the element equality accepts, and an optional
compares equal to nullopt exactly when it is empty. -/
theorem C7_equality {T : Type} [Inhabited T] [BEq T] (a b : optional T)
    (ha : a.Invariant) (hb : b.Invariant) :
    (a.beq b = true ↔
      ((a.has_value = false ∧ b.has_value = false) ∨
       (∃ x y, a.value_ = some x ∧ b.value_ = some y ∧ (x == y) = true))) ∧
    (a.beqNullopt = true ↔ a.has_value = false) := by
  obtain ⟨va, fa⟩ := a
  obtain ⟨vb, fb⟩ := b
  cases fa <;> cases fb <;>
    first
    | (have hva : va = none := by
        cases va with
        | none => rfl
        | some x => simp [optional.Invariant] at ha
       have hvb : vb = none := by
        cases vb with
        | none => rfl
        | some x => simp [optional.Invariant] at hb
       subst hva; subst hvb
       simp [optional.beq, optional.beqNullopt, optional.has_value])
    | (have hva : va = none := by
        cases va with
        | none => rfl
        | some x => simp [optional.Invariant] at ha
       obtain ⟨y, hy⟩ : ∃ y, vb = some y := by
        cases vb with
        | none => simp [optional.Invariant] at hb
        | some y => exact ⟨y, rfl⟩
       subst hva; subst hy
       simp [optional.beq, optional.beqNullopt, optional.has_value])
    | (obtain ⟨x, hx⟩ : ∃ x, va = some x := by
        cases va with
        | none => simp [optional.Invariant] at ha
        | some x => exact ⟨x, rfl⟩
       have hvb : vb = none := by
        cases vb with
        | none => rfl
        | some y => simp [optional.Invariant] at hb
       subst hx; subst hvb
       simp [optional.beq, optional.beqNullopt, optional.has_value])
    | (obtain ⟨x, hx⟩ : ∃ x, va = some x := by
        cases va with
        | none => simp [optional.Invariant] at ha
        | some x => exact ⟨x, rfl⟩
       obtain ⟨y, hy⟩ : ∃ y, vb = some y := by
        cases vb with
        | none => simp [optional.Invariant] at hb
        | some y => exact ⟨y, rfl⟩
       subst hx; subst hy
       simp [optional.beq, optional.beqNullopt, optional.has_value,
             optional.deref])

/-- Witness for C7 at two concrete optionals holding 2. -/
theorem C7_witness :
    (optional.ofValue (2 : Nat)).Invariant ∧
    (((optional.ofValue (2 : Nat)).beq (optional.ofValue 2) = true ↔
       (((optional.ofValue (2 : Nat)).has_value = false ∧
         (optional.ofValue (2 : Nat)).has_value = false) ∨
        (∃ x y, (optional.ofValue (2 : Nat)).value_ = some x ∧
          (optional.ofValue (2 : Nat)).value_ = some y ∧ (x == y) = true))) ∧
     ((optional.ofValue (2 : Nat)).beqNullopt = true ↔
       (optional.ofValue (2 : Nat)).has_value = false)) :=
  ⟨by decide,
   C7_equality (optional.ofValue 2) (optional.ofValue 2)
     (by decide) (by decide)⟩

/-- Claim C8: under the strict order, an empty optional is below every
holding one whatever the element order, a holding optional is never below
an empty one, two holding optionals delegate to the element order, and an
empty optional is below and not equal to every bare value. -/
theorem C8_ordering {T : Type} [Inhabited T] [BEq T] (ltT : T → T → Bool)
    (a b : optional T) (u : T) (ha : a.Invariant) (hb : b.Invariant) :
    (a.has_value = false → b.has_value = true →
      optional.lt ltT a b = true) ∧
    (b.has_value = false → optional.lt ltT a b = false) ∧
    (∀ x y, a.value_ = some x → b.value_ = some y →
      optional.lt ltT a b = ltT x y) ∧
    (a.has_value = false →
      optional.ltVal ltT a u = true ∧ a.beqVal u = false ∧
      a.bneVal u = true) := by
  obtain ⟨va, fa⟩ := a
  obtain ⟨vb, fb⟩ := b
  refine ⟨?_, ?_, ?_, ?_⟩
  · intro hae hbv
    simp [optional.has_value] at hae hbv
    subst hae; subst hbv
    simp [optional.lt]
  · intro hbe
    simp [optional.has_value] at hbe
    subst hbe
    simp [optional.lt]
  · intro x y hx hy
    simp at hx hy
    subst hx; subst hy
    have hfa : fa = true := by
      have : (some x).isSome = fa := ha
      simpa using this.symm
    have hfb : fb = true := by
      have : (some y).isSome = fb := hb
      simpa using this.symm
    subst hfa; subst hfb
    simp [optional.lt, optional.deref]
  · intro hae
    simp [optional.has_value] at hae
    subst hae
    simp [optional.ltVal, optional.beqVal, optional.bneVal]

/-- Witness for C8 at a concrete empty optional and an optional holding 3
over the natural order. -/
theorem C8_witness :
    (optional.empty Nat).Invariant ∧ (optional.ofValue (3 : Nat)).Invariant ∧
    (((optional.empty Nat).has_value = false →
        (optional.ofValue (3 : Nat)).has_value = true →
        optional.lt (fun x y => decide (x < y)) (optional.empty Nat)
          (optional.ofValue 3) = true) ∧
     ((optional.ofValue (3 : Nat)).has_value = false →
        optional.lt (fun x y => decide (x < y)) (optional.empty Nat)
          (optional.ofValue 3) = false) ∧
     (∀ x y, (optional.empty Nat).value_ = some x →
        (optional.ofValue (3 : Nat)).value_ = some y →
        optional.lt (fun x y => decide (x < y)) (optional.empty Nat)
          (optional.ofValue 3) = decide (x < y)) ∧
     ((optional.empty Nat).has_value = false →
        optional.ltVal (fun x y => decide (x < y)) (optional.empty Nat) 5 =
          true ∧
        (optional.empty Nat).beqVal 5 = false ∧
        (optional.empty Nat).bneVal 5 = true)) :=
  ⟨by decide, by decide,
   C8_ordering (fun x y => decide (x < y)) (optional.empty Nat)
     (optional.ofValue 3) 5 (by decide) (by decide)⟩

/-- Claim C10: the converting assignment of the reference specialization
from a value optional raises the empty-access error whenever the right
side is empty, and rebinds the left side exactly when the right side holds
a value. -/
theorem C10_ref_assign_throws_on_empty {T : Type} [Inhabited T]
    (lhs : optionalRef T) (rhs : optional T) :
    (rhs.has_value = false →
      lhs.assignFromOptional rhs = .error bad_optional_access.mk) ∧
    (∀ v, rhs.has_value = true → rhs.value_ = some v →
      lhs.assignFromOptional rhs = .ok ⟨some v⟩) := by
  obtain ⟨val, hv⟩ := rhs
  refine ⟨?_, ?_⟩
  · intro hempty
    simp [optional.has_value] at hempty
    subst hempty
    rfl
  · intro v hval hsome
    simp [optional.has_value] at hval
    simp at hsome
    subst hval; subst hsome
    rfl

/-- Witness for C10 at a concrete unbound reference optional and an empty
value optional. -/
theorem C10_witness :
    (((optional.empty Nat).has_value = false →
        optionalRef.assignFromOptional ⟨none⟩ (optional.empty Nat) =
          .error bad_optional_access.mk) ∧
     (∀ v, (optional.empty Nat).has_value = true →
        (optional.empty Nat).value_ = some v →
        optionalRef.assignFromOptional ⟨none⟩ (optional.empty Nat) =
          .ok ⟨some v⟩)) :=
  C10_ref_assign_throws_on_empty ⟨none⟩ (optional.empty Nat)

end Tao
